import Mathlib

/-!
Verification of the batch transcription pipeline in scripts/transcribe.py.

The script is embedded shallowly:

* paths are strings; Path.with_suffix and Path.name become string functions,
  written structurally over character lists so that concrete instances
  evaluate inside the kernel;
* format_timestamp is modelled over the rationals (the script only feeds it
  nonnegative segment boundaries); Python float // and % for a positive
  modulus are floor division and floor remainder;
* the Whisper model is an injected capability returning either a result
  (full text plus timed segments) or an error, and the filesystem write is
  allowed to fail as well, so the exception handling of
  transcribe_audio_file can be studied;
* the filesystem is an association list from paths to file contents where a
  write overwrites any earlier entry for the same path (mode w semantics);
* the discovery logic of main (changed_files.txt, the voice-record scan) is
  embedded over an environment describing which files exist.
-/

namespace VoiceRecord

/-- Paths are modelled as plain strings. -/
abbrev Path := String

/-- Split a character list at every occurrence of a separator character.
Always returns at least one (possibly empty) piece. -/
def splitOnChar (c : Char) : List Char → List (List Char)
  | [] => [[]]
  | x :: xs =>
    match splitOnChar c xs with
    | [] => [[]]
    | y :: ys => if x = c then [] :: y :: ys else (x :: y) :: ys

/-- Join character-list pieces with a separator character, inverse of
splitOnChar on separator-free pieces. -/
def joinWithChar (c : Char) : List (List Char) → List Char
  | [] => []
  | [x] => x
  | x :: y :: ys => x ++ c :: joinWithChar c (y :: ys)

/-- Bool test that one character list is an initial run of another. -/
def prefixChars : List Char → List Char → Bool
  | [], _ => true
  | _ :: _, [] => false
  | a :: as, b :: bs => a = b && prefixChars as bs

/-- Python s.endswith(ext), structurally: the reverse of ext is an initial
run of the reverse of s. -/
def endsWithExt (s : String) (ext : String) : Bool :=
  prefixChars ext.toList.reverse s.toList.reverse

/-- Python s.startswith(pre). -/
def beginsWith (s : String) (pre : String) : Bool :=
  prefixChars pre.toList s.toList

/-- Python str.strip(): drop leading and trailing whitespace. -/
def pyStrip (s : String) : String :=
  String.mk
    (((s.toList.dropWhile Char.isWhitespace).reverse.dropWhile Char.isWhitespace).reverse)

/-- The components of a path between the / separators. -/
def pathParts (p : Path) : List (List Char) :=
  splitOnChar '/' p.toList

/-- The final component of a path: Python Path.name. -/
def pathName (p : Path) : String :=
  String.mk ((pathParts p).getLastD p.toList)

/-- Drop the extension of a file name: everything from the last dot on,
provided that dot is not the leading character (Python suffix rules). -/
def stemChars (cs : List Char) : List Char :=
  match (cs.reverse).dropWhile (fun c => c ≠ '.') with
  | [] => cs
  | _ :: rest => if rest = [] then cs else rest.reverse

/-- Replace the extension of a file name with .txt. -/
def nameWithTxt (name : List Char) : List Char :=
  stemChars name ++ (".txt").toList

/-- Python audio_path.with_suffix applied to a whole path: the final
component has its extension replaced by .txt, the directory part is kept. -/
def withSuffixTxt (p : Path) : Path :=
  String.mk (joinWithChar '/' ((pathParts p).dropLast ++ [nameWithTxt ((pathParts p).getLastD p.toList)]))

/-- Python a % b for rationals and a positive modulus b: a - b * floor (a/b). -/
def pyMod (a b : ℚ) : ℚ := a - b * ⌊a / b⌋

/-- The hours field of format_timestamp: int(seconds // 3600). -/
def fmtHours (seconds : ℚ) : ℤ := ⌊seconds / 3600⌋

/-- The minutes field of format_timestamp: int((seconds % 3600) // 60). -/
def fmtMinutes (seconds : ℚ) : ℤ := ⌊pyMod seconds 3600 / 60⌋

/-- The seconds field of format_timestamp: int(seconds % 60). -/
def fmtSecs (seconds : ℚ) : ℤ := ⌊pyMod seconds 60⌋

/-- Python format spec 02d: zero-pad a one-digit nonnegative value to two
characters, leave everything else as plain decimal. -/
def pad2 (n : ℤ) : String :=
  if 0 ≤ n ∧ n < 10 then "0" ++ toString n else toString n

/-- format_timestamp from scripts/transcribe.py: HH:MM:SS, zero padded. -/
def format_timestamp (seconds : ℚ) : String :=
  pad2 (fmtHours seconds) ++ ":" ++ pad2 (fmtMinutes seconds) ++ ":" ++ pad2 (fmtSecs seconds)

/-- One timed span of recognized speech, as found in result segments. -/
structure Segment where
  start : ℚ
  stop : ℚ
  text : String
deriving DecidableEq, Repr

/-- The value returned by a successful model.transcribe call. -/
structure TResult where
  text : String
  segments : List Segment
deriving DecidableEq, Repr

/-- The sixty-character separator line written between artifact sections. -/
def sepLine : String := String.mk (List.replicate 60 '=')

/-- The line written for one segment:
[start -> end] text, with the segment text stripped. -/
def segmentLine (s : Segment) : String :=
  "[" ++ format_timestamp s.start ++ " -> " ++ format_timestamp s.stop ++ "] "
    ++ pyStrip s.text ++ "\n"

/-- The full content written to the transcript file by
transcribe_audio_file, in the order the script writes it. -/
def transcriptContent (name : String) (text : String) (segments : List Segment) : String :=
  "Transcript of: " ++ name ++ "\n"
    ++ "Language: Cantonese/Chinese\n"
    ++ sepLine ++ "\n\n"
    ++ pyStrip text
    ++ "\n\n"
    ++ sepLine ++ "\n"
    ++ "Detailed segments:\n\n"
    ++ String.join (segments.map segmentLine)

/-- The world transcribe_audio_file runs against: the injected Whisper
capability (model.transcribe, which may raise) and an injection point for
write failures (open or f.write raising an I/O error at a given path). -/
structure Env where
  transcribe : Path → Except String TResult
  writeFails : Path → Bool

/-- The filesystem: an association list from paths to file contents; the
entry closest to the head wins. -/
abbrev FS := List (Path × String)

/-- Look a path up in the filesystem. -/
def fsLookup : FS → Path → Option String
  | [], _ => none
  | (q, c) :: rest, p => if q = p then some c else fsLookup rest p

/-- Opening a file in mode w and writing: any earlier content at the path
is discarded and replaced. -/
def fsWrite (fs : FS) (p : Path) (content : String) : FS :=
  (p, content) :: fs.filter (fun e => !(e.1 == p))

/-- The body of the try block of transcribe_audio_file: call the model,
then write the artifact next to the source with extension .txt; a
capability error or a write error escapes as an exception. -/
def transcribeBody (env : Env) (fs : FS) (audio_path : Path) :
    Except String (FS × Bool) :=
  match env.transcribe audio_path with
  | Except.error e => Except.error e
  | Except.ok result =>
    let transcript_path := withSuffixTxt audio_path
    if env.writeFails transcript_path then
      Except.error "write failed"
    else
      Except.ok
        (fsWrite fs transcript_path
          (transcriptContent (pathName audio_path) result.text result.segments), true)

/-- transcribe_audio_file from scripts/transcribe.py: the try body above
wrapped in except Exception, which prints the error and returns False.  The
function always returns a plain value (new filesystem, success flag). -/
def transcribe_audio_file (env : Env) (fs : FS) (audio_path : Path) : FS × Bool :=
  match transcribeBody env fs audio_path with
  | Except.ok r => r
  | Except.error _ => (fs, false)

/-- The transcription loop of main: process each audio file in order,
recording the outcome of every attempt.  Returns the final filesystem and
the trace of (path, outcome) pairs, one per input, in processing order. -/
def runBatch (env : Env) (fs : FS) : List Path → FS × List (Path × Bool)
  | [] => (fs, [])
  | p :: rest =>
    let r := transcribe_audio_file env fs p
    let tail := runBatch env r.1 rest
    (tail.1, (p, r.2) :: tail.2)

/-- success_count as accumulated by the loop in main. -/
def success_count (env : Env) (fs : FS) : List Path → Nat
  | [] => 0
  | p :: rest =>
    let r := transcribe_audio_file env fs p
    (if r.2 then 1 else 0) + success_count env r.1 rest

/-- The aggregate result of a batch, as the specification describes it:
attempted and succeeded counts and the ordered failure list. -/
structure RunSummary where
  attempted : Nat
  succeeded : Nat
  failures : List Path
deriving DecidableEq, Repr

/-- The RunSummary read off from the batch trace: every trace entry is one
attempt, the true entries are the successes, the false entries the
failures, in processing order. -/
def summaryOf (trace : List (Path × Bool)) : RunSummary :=
  { attempted := trace.length
    succeeded := (trace.filter (fun e => e.2)).length
    failures := (trace.filter (fun e => !e.2)).map Prod.fst }

/-- run: the whole of main after discovery, returning the final filesystem
and the run summary. -/
def run (env : Env) (fs : FS) (inputs : List Path) : FS × RunSummary :=
  let r := runBatch env fs inputs
  (r.1, summaryOf r.2)

/-- The audio extensions scanned for, in the order the script lists them. -/
def audio_extensions : List String := [".mp3", ".wav", ".m4a", ".flac", ".ogg"]

/-- The world the discovery phase of main runs against. -/
structure DiscoveryEnv where
  changedFilesExists : Bool
  changedFilesContent : String
  pathExists : Path → Bool
  voiceRecordExists : Bool
  voiceRecordTree : List Path

/-- The nonblank stripped lines of changed_files.txt, in file order. -/
def parseChangedFiles (content : String) : List String :=
  (((splitOnChar '\n' content.toList).map fun l => pyStrip (String.mk l)).filter
    fun l => l ≠ "")

/-- The directory scan branch of main: for each extension in order, the
files under voice-record matching it, in traversal order; nothing when the
directory is missing. -/
def scanVoiceRecord (env : DiscoveryEnv) : List Path :=
  if env.voiceRecordExists then
    audio_extensions.flatMap fun ext =>
      env.voiceRecordTree.filter fun p => endsWithExt p ext
  else []

/-- What the discovery phase of main decides: either return from main
before transcribing anything, or proceed with a list of audio files. -/
inductive DiscoverOutcome where
  | earlyReturn
  | proceed (files : List Path)
deriving DecidableEq, Repr

/-- The discovery phase of main: when changed_files.txt exists its nonblank
lines are kept if they exist on disk (an empty line list returns early);
when it does not exist the voice-record tree is scanned, and an empty scan
returns early. -/
def discoverInputs (env : DiscoveryEnv) : DiscoverOutcome :=
  if env.changedFilesExists then
    let changed := parseChangedFiles env.changedFilesContent
    if changed = [] then DiscoverOutcome.earlyReturn
    else DiscoverOutcome.proceed (changed.filter fun p => env.pathExists p)
  else
    let files := scanVoiceRecord env
    if files = [] then DiscoverOutcome.earlyReturn
    else DiscoverOutcome.proceed files

/-- The artifact layout exactly as section 6 of the design document draws
it: header block, trimmed text between separators, then the segment lines.
Stated spec-side, for comparison with transcriptContent. -/
def specArtifactFormat (sourceName langLabel fullText : String)
    (segLines : List String) : String :=
  "Transcript of: " ++ sourceName ++ "\n"
    ++ "Language: " ++ langLabel ++ "\n"
    ++ sepLine ++ "\n"
    ++ "\n"
    ++ fullText
    ++ "\n"
    ++ "\n"
    ++ sepLine ++ "\n"
    ++ "Detailed segments:\n"
    ++ "\n"
    ++ String.join segLines

/-- A capability that always raises, as a corrupt input would. -/
def envRaise : Env where
  transcribe := fun _ => Except.error "corrupt audio"
  writeFails := fun _ => false

/-- A capability that succeeds everywhere while the write of a.txt raises
an I/O error. -/
def envBadDisk : Env where
  transcribe := fun _ => Except.ok ⟨"hi", []⟩
  writeFails := fun p => p == "a.txt"

/-- A capability that raises only for a.mp3 and succeeds elsewhere, with a
healthy disk. -/
def envFailFirst : Env where
  transcribe := fun p => if p == "a.mp3" then Except.error "corrupt audio" else Except.ok ⟨"hi", []⟩
  writeFails := fun _ => false

/-- A capability that succeeds everywhere, with a healthy disk. -/
def envOk : Env where
  transcribe := fun _ => Except.ok ⟨"hi", []⟩
  writeFails := fun _ => false

/-- Discovery world: changed_files.txt lists one existing and one missing
path. -/
def denvExplicit : DiscoveryEnv where
  changedFilesExists := true
  changedFilesContent := "a.mp3\nmissing.mp3\n"
  pathExists := fun p => p == "a.mp3"
  voiceRecordExists := true
  voiceRecordTree := []

/-- Discovery world: changed_files.txt exists but is empty, while the
voice-record tree does hold an audio file. -/
def denvEmptyList : DiscoveryEnv where
  changedFilesExists := true
  changedFilesContent := ""
  pathExists := fun _ => false
  voiceRecordExists := true
  voiceRecordTree := ["voice-record/x.mp3"]

/-- Discovery world: no changed_files.txt; the tree holds a .wav that
lexicographically precedes a .mp3. -/
def denvScan : DiscoveryEnv where
  changedFilesExists := false
  changedFilesContent := ""
  pathExists := fun _ => false
  voiceRecordExists := true
  voiceRecordTree := ["voice-record/a.wav", "voice-record/b.mp3"]

/-! ## Helper lemmas -/

/-- Every trace entry is classified by its Bool: length splits into the
successes and the failures. -/
theorem trace_length_split (t : List (Path × Bool)) :
    t.length = (t.filter (fun e => e.2)).length + (t.filter (fun e => !e.2)).length := by
  induction t with
  | nil => rfl
  | cons e t ih =>
    cases h : e.2 <;> simp [List.filter, h, ih] <;> omega

/-- The batch trace visits exactly the input list, in order. -/
theorem runBatch_trace_fst (env : Env) (fs : FS) (l : List Path) :
    ((runBatch env fs l).2).map Prod.fst = l := by
  induction l generalizing fs with
  | nil => rfl
  | cons p rest ih => simp [runBatch, ih]

/-- Case analysis of transcribe_audio_file: capability error. -/
theorem transcribe_audio_file_err (env : Env) (fs : FS) (p : Path) (e : String)
    (h : env.transcribe p = Except.error e) :
    transcribe_audio_file env fs p = (fs, false) := by
  simp [transcribe_audio_file, transcribeBody, h]

/-- Case analysis of transcribe_audio_file: capability succeeds but the
write raises. -/
theorem transcribe_audio_file_badwrite (env : Env) (fs : FS) (p : Path) (r : TResult)
    (h : env.transcribe p = Except.ok r)
    (hw : env.writeFails (withSuffixTxt p) = true) :
    transcribe_audio_file env fs p = (fs, false) := by
  simp [transcribe_audio_file, transcribeBody, h, hw]

/-- Case analysis of transcribe_audio_file: success. -/
theorem transcribe_audio_file_ok (env : Env) (fs : FS) (p : Path) (r : TResult)
    (h : env.transcribe p = Except.ok r)
    (hw : env.writeFails (withSuffixTxt p) = false) :
    transcribe_audio_file env fs p =
      (fsWrite fs (withSuffixTxt p)
        (transcriptContent (pathName p) r.text r.segments), true) := by
  simp [transcribe_audio_file, transcribeBody, h, hw]

/-- A write sets its own key. -/
theorem fsLookup_fsWrite_self (fs : FS) (p : Path) (c : String) :
    fsLookup (fsWrite fs p c) p = some c := by
  simp [fsLookup, fsWrite]

/-- Filtering out one key does not change lookups of other keys. -/
theorem fsLookup_filter_ne (t : FS) (p q : Path) (h : q ≠ p) :
    fsLookup (t.filter (fun e => !(e.1 == p))) q = fsLookup t q := by
  induction t with
  | nil => rfl
  | cons e t ih =>
    cases e with
    | mk k v =>
      by_cases hk : k = p
      · have h1 : (!(k == p)) = false := by simp [hk]
        have hkq : ¬ k = q := fun hq => h (hq.symm.trans hk)
        simp [List.filter_cons, h1, fsLookup, hkq, ih]
      · have h1 : (!(k == p)) = true := by simp [hk]
        simp only [List.filter_cons, h1, if_true, fsLookup]
        by_cases hq : k = q <;> simp [hq, ih]

/-- A write leaves other keys untouched. -/
theorem fsLookup_fsWrite_other (fs : FS) (p q : Path) (c : String) (h : q ≠ p) :
    fsLookup (fsWrite fs p c) q = fsLookup fs q := by
  have hpq : ¬ p = q := fun hc => h hc.symm
  simp only [fsWrite, fsLookup, if_neg hpq]
  exact fsLookup_filter_ne fs p q h

/-- Writing never removes a present key. -/
theorem fsLookup_fsWrite_mono (fs : FS) (p q : Path) (c : String)
    (h : (fsLookup fs q).isSome = true) :
    (fsLookup (fsWrite fs p c) q).isSome = true := by
  by_cases hq : q = p
  · subst hq; simp [fsLookup_fsWrite_self]
  · rwa [fsLookup_fsWrite_other fs p q c hq]

/-- One batch step never removes a present key. -/
theorem transcribe_audio_file_fs_mono (env : Env) (fs : FS) (p q : Path)
    (h : (fsLookup fs q).isSome = true) :
    (fsLookup ((transcribe_audio_file env fs p).1) q).isSome = true := by
  cases hr : env.transcribe p with
  | error e => rwa [transcribe_audio_file_err env fs p e hr]
  | ok r =>
    cases hw : env.writeFails (withSuffixTxt p) with
    | false =>
      rw [transcribe_audio_file_ok env fs p r hr hw]
      exact fsLookup_fsWrite_mono _ _ _ _ h
    | true => rwa [transcribe_audio_file_badwrite env fs p r hr hw]

/-- The whole batch never removes a present key. -/
theorem runBatch_fs_mono (env : Env) (l : List Path) (fs : FS) (q : Path)
    (h : (fsLookup fs q).isSome = true) :
    (fsLookup ((runBatch env fs l).1) q).isSome = true := by
  induction l generalizing fs with
  | nil => exact h
  | cons p rest ih =>
    simp only [runBatch]
    exact ih _ (transcribe_audio_file_fs_mono env fs p q h)

/-- Any input whose transcription succeeds and whose artifact write does
not raise ends up with an artifact in the final filesystem. -/
theorem runBatch_persists (env : Env) (l : List Path) (fs : FS) (p : Path) (r : TResult)
    (hmem : p ∈ l) (hr : env.transcribe p = Except.ok r)
    (hw : env.writeFails (withSuffixTxt p) = false) :
    (fsLookup ((runBatch env fs l).1) (withSuffixTxt p)).isSome = true := by
  induction l generalizing fs with
  | nil => cases hmem
  | cons x rest ih =>
    simp only [runBatch]
    rcases List.mem_cons.mp hmem with hx | hx
    · subst hx
      rw [transcribe_audio_file_ok env fs p r hr hw]
      exact runBatch_fs_mono env rest _ _ (by simp [fsLookup_fsWrite_self])
    · exact ih _ hx

/-! ## Claim theorems -/

/-- Claim C1: for every input sequence, capability and filesystem, the run
summary satisfies attempted = succeeded + number of failures, and attempted
is the number of inputs. -/
theorem C1_summary_invariant (env : Env) (fs : FS) (inputs : List Path) :
    ((run env fs inputs).2).attempted =
        ((run env fs inputs).2).succeeded + ((run env fs inputs).2).failures.length ∧
      ((run env fs inputs).2).attempted = inputs.length := by
  constructor
  · simp only [run, summaryOf, List.length_map]
    exact trace_length_split (runBatch env fs inputs).2
  · simp only [run, summaryOf]
    have h := congrArg List.length (runBatch_trace_fst env fs inputs)
    simpa using h

/-- Claim C2: a capability error never escapes transcribe_audio_file as an
error: the function returns the plain value (fs, false) — the failed
outcome as data — so the batch loop always receives a value. -/
theorem C2_no_reraise (env : Env) (fs : FS) (p : Path) (e : String)
    (h : env.transcribe p = Except.error e) :
    transcribe_audio_file env fs p = (fs, false) ∧
      transcribeBody env fs p = Except.error e := by
  refine ⟨transcribe_audio_file_err env fs p e h, ?_⟩
  simp [transcribeBody, h]

/-- Witness for C2 at a concrete raising capability. -/
theorem C2_no_reraise_witness :
    transcribe_audio_file envRaise [] "a.mp3" = ([], false) ∧
      transcribeBody envRaise [] "a.mp3" = Except.error "corrupt audio" :=
  C2_no_reraise envRaise [] "a.mp3" "corrupt audio" rfl

/-- Claim C3: the batch loop never aborts on a failure: the trace covers
every input in discovery order, and any input whose transcription succeeds
and whose write does not raise has its artifact in the final filesystem,
regardless of failures elsewhere in the sequence. -/
theorem C3_no_abort (env : Env) (fs : FS) (inputs : List Path) :
    ((runBatch env fs inputs).2).map Prod.fst = inputs ∧
      ∀ p r, p ∈ inputs → env.transcribe p = Except.ok r →
        env.writeFails (withSuffixTxt p) = false →
        (fsLookup ((runBatch env fs inputs).1) (withSuffixTxt p)).isSome = true := by
  refine ⟨runBatch_trace_fst env fs inputs, ?_⟩
  intro p r hmem hr hw
  exact runBatch_persists env inputs fs p r hmem hr hw

/-- Witness for C3: the first input raises, the second is still attempted
and its artifact persisted. -/
theorem C3_no_abort_witness :
    ((runBatch envFailFirst [] ["a.mp3", "b.mp3"]).2).map Prod.fst = ["a.mp3", "b.mp3"] ∧
      (fsLookup ((runBatch envFailFirst [] ["a.mp3", "b.mp3"]).1)
        (withSuffixTxt "b.mp3")).isSome = true := by
  have h := C3_no_abort envFailFirst [] ["a.mp3", "b.mp3"]
  exact ⟨h.1, h.2 "b.mp3" ⟨"hi", []⟩ (by decide) rfl rfl⟩

/-- Counterexample to claim C4: with a capability that raises, the single
input is attempted yet the final filesystem holds no artifact at all, so
there is no persisted artifact per attempted input and no failure
transcript on disk. -/
theorem C4_counterexample :
    ((run envRaise [] ["a.mp3"]).2).attempted = 1 ∧
      (run envRaise [] ["a.mp3"]).1 = [] ∧
      fsLookup (run envRaise [] ["a.mp3"]).1 (withSuffixTxt "a.mp3") = none := by
  decide

/-- Claim C4 as amended: a failed transcription writes nothing — the
filesystem is unchanged — and only a successful transcription writes the
artifact, so there is one artifact per successful input, not per attempted
input. -/
theorem C4_persist_only_on_success (env : Env) (fs : FS) (p : Path) :
    (∀ e, env.transcribe p = Except.error e →
        (transcribe_audio_file env fs p).1 = fs) ∧
      (∀ r, env.transcribe p = Except.ok r →
        env.writeFails (withSuffixTxt p) = false →
        (transcribe_audio_file env fs p).1 =
          fsWrite fs (withSuffixTxt p)
            (transcriptContent (pathName p) r.text r.segments)) := by
  constructor
  · intro e h
    rw [transcribe_audio_file_err env fs p e h]
  · intro r h hw
    rw [transcribe_audio_file_ok env fs p r h hw]

/-- Witness for the amended C4 at concrete raising and succeeding
capabilities. -/
theorem C4_persist_only_on_success_witness :
    (transcribe_audio_file envRaise [] "a.mp3").1 = [] ∧
      (transcribe_audio_file envOk [] "a.mp3").1 =
        fsWrite [] (withSuffixTxt "a.mp3")
          (transcriptContent (pathName "a.mp3") "hi" []) :=
  ⟨(C4_persist_only_on_success envRaise [] "a.mp3").1 "corrupt audio" rfl,
   (C4_persist_only_on_success envOk [] "a.mp3").2 ⟨"hi", []⟩ rfl rfl⟩

/-- Counterexample to claim C5: the write of a.txt raises an I/O error,
yet the run is not aborted: b.mp3 is still processed afterwards and its
artifact written, and the first item is recorded as an ordinary failure. -/
theorem C5_counterexample :
    (runBatch envBadDisk [] ["a.mp3", "b.mp3"]).2 = [("a.mp3", false), ("b.mp3", true)] ∧
      (fsLookup (runBatch envBadDisk [] ["a.mp3", "b.mp3"]).1 "b.txt").isSome = true := by
  decide

/-- Claim C5 as amended: a write error is caught by the same except handler
as a transcription error: transcribe_audio_file returns (fs, false) without
propagating anything, and the batch continues through the remaining
inputs. -/
theorem C5_write_error_recovered (env : Env) (fs : FS) (p : Path) (r : TResult)
    (rest : List Path)
    (h : env.transcribe p = Except.ok r)
    (hw : env.writeFails (withSuffixTxt p) = true) :
    transcribe_audio_file env fs p = (fs, false) ∧
      ((runBatch env fs (p :: rest)).2).map Prod.fst = p :: rest := by
  exact ⟨transcribe_audio_file_badwrite env fs p r h hw,
    runBatch_trace_fst env fs (p :: rest)⟩

/-- Witness for the amended C5 on the bad-disk world. -/
theorem C5_write_error_recovered_witness :
    transcribe_audio_file envBadDisk [] "a.mp3" = ([], false) ∧
      ((runBatch envBadDisk [] ["a.mp3", "b.mp3"]).2).map Prod.fst = ["a.mp3", "b.mp3"] :=
  C5_write_error_recovered envBadDisk [] "a.mp3" ⟨"hi", []⟩ ["b.mp3"] rfl (by decide)

/-- Claim C6: with a nonempty explicit list, discovery proceeds with
exactly the entries that exist on disk: the result is the existence filter
of the parsed lines, a sublist of them (original relative order), and a
path is in the result precisely when it is a parsed line that exists;
missing entries raise nothing and are simply absent. -/
theorem C6_explicit_list (env : DiscoveryEnv)
    (h : env.changedFilesExists = true)
    (hne : parseChangedFiles env.changedFilesContent ≠ []) :
    discoverInputs env =
        DiscoverOutcome.proceed
          ((parseChangedFiles env.changedFilesContent).filter fun p => env.pathExists p) ∧
      List.Sublist
        ((parseChangedFiles env.changedFilesContent).filter fun p => env.pathExists p)
        (parseChangedFiles env.changedFilesContent) ∧
      ∀ p, (p ∈ (parseChangedFiles env.changedFilesContent).filter
              (fun p => env.pathExists p)) ↔
        (p ∈ parseChangedFiles env.changedFilesContent ∧ env.pathExists p = true) := by
  refine ⟨?_, List.filter_sublist _, fun p => List.mem_filter⟩
  simp [discoverInputs, h, hne]

/-- Witness for C6: one existing and one missing entry yield exactly the
existing one. -/
theorem C6_explicit_list_witness :
    discoverInputs denvExplicit = DiscoverOutcome.proceed ["a.mp3"] := by
  have h := C6_explicit_list denvExplicit rfl (by decide)
  rw [h.1]
  decide

/-- Counterexample to claim C7: an existing but empty changed_files.txt
does not fall back to scanning — main returns early although the scan
would find voice-record/x.mp3 — and the scan output is grouped by
extension (mp3 before wav), not lexicographic. -/
theorem C7_counterexample :
    (discoverInputs denvEmptyList = DiscoverOutcome.earlyReturn ∧
        scanVoiceRecord denvEmptyList = ["voice-record/x.mp3"]) ∧
      (discoverInputs denvScan =
          DiscoverOutcome.proceed ["voice-record/b.mp3", "voice-record/a.wav"] ∧
        discoverInputs denvScan ≠
          DiscoverOutcome.proceed ["voice-record/a.wav", "voice-record/b.mp3"]) := by
  decide

/-- Claim C7 as amended: only when changed_files.txt is absent does
discovery scan the voice-record tree, collecting the files matching the
five audio extensions grouped by extension in the listed order (traversal
order within a group); an empty scan returns early and never fails, while
an existing but empty changed_files.txt also returns early, without
scanning. -/
theorem C7_fallback_scan (env : DiscoveryEnv) :
    (env.changedFilesExists = false →
      (scanVoiceRecord env = [] → discoverInputs env = DiscoverOutcome.earlyReturn) ∧
        (scanVoiceRecord env ≠ [] →
          discoverInputs env = DiscoverOutcome.proceed (scanVoiceRecord env)) ∧
        ∀ p, (p ∈ scanVoiceRecord env) ↔
          (env.voiceRecordExists = true ∧ p ∈ env.voiceRecordTree ∧
            ∃ ext, ext ∈ audio_extensions ∧ endsWithExt p ext = true)) ∧
      (env.changedFilesExists = true →
        parseChangedFiles env.changedFilesContent = [] →
        discoverInputs env = DiscoverOutcome.earlyReturn) := by
  constructor
  · intro h
    refine ⟨fun he => by simp [discoverInputs, h, he],
      fun he => by simp [discoverInputs, h, he], fun p => ?_⟩
    cases hv : env.voiceRecordExists with
    | false => simp [scanVoiceRecord, hv]
    | true =>
      simp only [scanVoiceRecord, hv, if_true, List.mem_flatMap, List.mem_filter]
      constructor
      · rintro ⟨ext, hext, hp, he⟩
        exact ⟨trivial, hp, ext, hext, he⟩
      · rintro ⟨-, hp, ext, hext, he⟩
        exact ⟨ext, hext, hp, he⟩
  · intro h he
    simp [discoverInputs, h, he]

/-- Witness for the amended C7: the scan world proceeds with the grouped
scan, and the empty-explicit-list world returns early. -/
theorem C7_fallback_scan_witness :
    discoverInputs denvScan = DiscoverOutcome.proceed (scanVoiceRecord denvScan) ∧
      discoverInputs denvEmptyList = DiscoverOutcome.earlyReturn :=
  ⟨((C7_fallback_scan denvScan).1 rfl).2.1 (by decide),
    (C7_fallback_scan denvEmptyList).2 rfl (by decide)⟩

/-- Merging two adjacent literal pieces inside a right-associated append
chain. -/
theorem append_lit_merge {a b c : String} (h : a ++ b = c) (r : String) :
    a ++ (b ++ r) = c ++ r := by
  rw [← String.append_assoc, h]

/-- Evaluation scheme for format_timestamp once its three fields are
known. -/
theorem format_timestamp_eval (s : ℚ) (h m sec : ℤ)
    (hh : fmtHours s = h) (hm : fmtMinutes s = m) (hs : fmtSecs s = sec) :
    format_timestamp s = pad2 h ++ ":" ++ pad2 m ++ ":" ++ pad2 sec := by
  rw [format_timestamp, hh, hm, hs]

/-- Claim C8: the artifact produced for a successful transcription has
exactly the fixed layout of the design document — header block, trimmed
text between separators, then one line per segment in segment order — and
on the segments (0.0, 1.5, a) and (1.5, 3.0, b) the segment lines are
[00:00:00 -> 00:00:01] a and [00:00:01 -> 00:00:03] b in that order. -/
theorem C8_artifact_format (name text : String) (segs : List Segment) :
    transcriptContent name text segs =
        specArtifactFormat name "Cantonese/Chinese" (pyStrip text) (segs.map segmentLine) ∧
      ([⟨0, 3/2, "a"⟩, ⟨3/2, 3, "b"⟩] : List Segment).map segmentLine =
        ["[00:00:00 -> 00:00:01] a\n", "[00:00:01 -> 00:00:03] b\n"] := by
  constructor
  · simp only [transcriptContent, specArtifactFormat, String.append_assoc]
    rw [append_lit_merge (show ("Language: " : String) ++ "Cantonese/Chinese"
          = "Language: Cantonese/Chinese" by decide),
      append_lit_merge (show ("Language: Cantonese/Chinese" : String) ++ "\n"
          = "Language: Cantonese/Chinese\n" by decide),
      append_lit_merge (show ("\n" : String) ++ "\n" = "\n\n" by decide),
      append_lit_merge (show ("\n" : String) ++ "\n" = "\n\n" by decide),
      append_lit_merge (show ("Detailed segments:\n" : String) ++ "\n"
          = "Detailed segments:\n\n" by decide)]
  · have e0 : format_timestamp 0 = "00:00:00" := by
      rw [format_timestamp_eval 0 0 0 0 (by norm_num [fmtHours])
        (by norm_num [fmtMinutes, pyMod]) (by norm_num [fmtSecs, pyMod])]
      decide
    have e1 : format_timestamp (3/2) = "00:00:01" := by
      rw [format_timestamp_eval (3/2) 0 0 1 (by norm_num [fmtHours])
        (by norm_num [fmtMinutes, pyMod]) (by norm_num [fmtSecs, pyMod])]
      decide
    have e3 : format_timestamp 3 = "00:00:03" := by
      rw [format_timestamp_eval 3 0 0 3 (by norm_num [fmtHours])
        (by norm_num [fmtMinutes, pyMod]) (by norm_num [fmtSecs, pyMod])]
      decide
    have l1 : segmentLine ⟨0, 3/2, "a"⟩ = "[00:00:00 -> 00:00:01] a\n" := by
      show "[" ++ format_timestamp 0 ++ " -> " ++ format_timestamp (3/2) ++ "] "
          ++ pyStrip "a" ++ "\n" = _
      rw [e0, e1]
      decide
    have l2 : segmentLine ⟨3/2, 3, "b"⟩ = "[00:00:01 -> 00:00:03] b\n" := by
      show "[" ++ format_timestamp (3/2) ++ " -> " ++ format_timestamp 3 ++ "] "
          ++ pyStrip "b" ++ "\n" = _
      rw [e1, e3]
      decide
    simp [l1, l2]

/-- Filtering a key out twice is the same as filtering it out once. -/
theorem fsFilter_idem (fs : FS) (p : Path) :
    (fs.filter fun e => !(e.1 == p)).filter (fun e => !(e.1 == p)) =
      fs.filter fun e => !(e.1 == p) := by
  rw [List.filter_filter]
  congr 1
  funext e
  cases h : (e.1 == p) <;> simp [h]

/-- Writing the same path twice keeps only the last write. -/
theorem fsWrite_idem (fs : FS) (p : Path) (c c' : String) :
    fsWrite (fsWrite fs p c) p c' = fsWrite fs p c' := by
  simp [fsWrite, List.filter_cons, fsFilter_idem]

/-- Counterexample to claim C9: for source voice-record/a.mp3 the artifact
key in the filesystem after a successful run is voice-record/a.txt — the
source path with its extension swapped, inside the source's own directory —
which does not lie under a separate output directory such as
transcripts. -/
theorem C9_counterexample :
    ((transcribe_audio_file envOk [] "voice-record/a.mp3").1).map Prod.fst =
        ["voice-record/a.txt"] ∧
      beginsWith "voice-record/a.txt" "transcripts" = false := by
  decide

/-- Claim C9 as amended: the artifact is written at the source path with
its extension replaced by .txt (same directory as the source; the script
takes no output directory and creates none), and writing is an idempotent
overwrite: persisting the same transcript twice leaves the filesystem
exactly as one write does, with the artifact content at that path. -/
theorem C9_artifact_path (env : Env) (fs : FS) (p : Path) (r : TResult)
    (h : env.transcribe p = Except.ok r)
    (hw : env.writeFails (withSuffixTxt p) = false) :
    transcribe_audio_file env fs p =
        (fsWrite fs (withSuffixTxt p)
          (transcriptContent (pathName p) r.text r.segments), true) ∧
      transcribe_audio_file env
          (fsWrite fs (withSuffixTxt p)
            (transcriptContent (pathName p) r.text r.segments)) p =
        (fsWrite fs (withSuffixTxt p)
          (transcriptContent (pathName p) r.text r.segments), true) ∧
      fsLookup
          (fsWrite fs (withSuffixTxt p)
            (transcriptContent (pathName p) r.text r.segments))
          (withSuffixTxt p) =
        some (transcriptContent (pathName p) r.text r.segments) := by
  refine ⟨transcribe_audio_file_ok env fs p r h hw, ?_, fsLookup_fsWrite_self _ _ _⟩
  rw [transcribe_audio_file_ok env _ p r h hw, fsWrite_idem]

/-- Witness for the amended C9 on a concrete successful world. -/
theorem C9_artifact_path_witness :
    transcribe_audio_file envOk [] "voice-record/a.mp3" =
        (fsWrite [] (withSuffixTxt "voice-record/a.mp3")
          (transcriptContent (pathName "voice-record/a.mp3") "hi" []), true) ∧
      transcribe_audio_file envOk
          (fsWrite [] (withSuffixTxt "voice-record/a.mp3")
            (transcriptContent (pathName "voice-record/a.mp3") "hi" [])) "voice-record/a.mp3" =
        (fsWrite [] (withSuffixTxt "voice-record/a.mp3")
          (transcriptContent (pathName "voice-record/a.mp3") "hi" []), true) := by
  have h := C9_artifact_path envOk [] "voice-record/a.mp3" ⟨"hi", []⟩ rfl rfl
  exact ⟨h.1, h.2.1⟩

/-- Python remainder by a positive modulus is nonnegative. -/
theorem pyMod_nonneg (s b : ℚ) (hb : 0 < b) : 0 ≤ pyMod s b := by
  have h1 : (⌊s / b⌋ : ℚ) ≤ s / b := Int.floor_le _
  have h2 : b * (⌊s / b⌋ : ℚ) ≤ b * (s / b) :=
    mul_le_mul_of_nonneg_left h1 (le_of_lt hb)
  have h3 : b * (s / b) = s := by field_simp
  simp only [pyMod]
  linarith

/-- Python remainder by a positive modulus is below the modulus. -/
theorem pyMod_lt (s b : ℚ) (hb : 0 < b) : pyMod s b < b := by
  have h1 : s / b < (⌊s / b⌋ : ℚ) + 1 := Int.lt_floor_add_one _
  have h2 : b * (s / b) < b * ((⌊s / b⌋ : ℚ) + 1) := (mul_lt_mul_left hb).mpr h1
  have h3 : b * (s / b) = s := by field_simp
  simp only [pyMod]
  nlinarith

/-- Claim C10: for nonnegative seconds the three fields of
format_timestamp are in range — minutes and seconds within 0..59 — and
hours*3600 + minutes*60 + secs reconstructs the floor of the input. -/
theorem C10_format_timestamp_fields (s : ℚ) (h : 0 ≤ s) :
    0 ≤ fmtHours s ∧
      0 ≤ fmtMinutes s ∧ fmtMinutes s ≤ 59 ∧
      0 ≤ fmtSecs s ∧ fmtSecs s ≤ 59 ∧
      fmtHours s * 3600 + fmtMinutes s * 60 + fmtSecs s = ⌊s⌋ := by
  have hm0 : 0 ≤ pyMod s 3600 := pyMod_nonneg s 3600 (by norm_num)
  have hm1 : pyMod s 3600 < 3600 := pyMod_lt s 3600 (by norm_num)
  have hs0 : 0 ≤ pyMod s 60 := pyMod_nonneg s 60 (by norm_num)
  have hs1 : pyMod s 60 < 60 := pyMod_lt s 60 (by norm_num)
  have hmin : fmtMinutes s = ⌊s / 60⌋ - 60 * ⌊s / 3600⌋ := by
    have e : pyMod s 3600 / 60 = s / 60 - ((60 * ⌊s / 3600⌋ : ℤ) : ℚ) := by
      simp only [pyMod]
      push_cast
      ring
    rw [fmtMinutes, e, Int.floor_sub_int]
  have hsec : fmtSecs s = ⌊s⌋ - 60 * ⌊s / 60⌋ := by
    have e : pyMod s 60 = s - ((60 * ⌊s / 60⌋ : ℤ) : ℚ) := by
      simp only [pyMod]
      push_cast
      ring
    rw [fmtSecs, e, Int.floor_sub_int]
  refine ⟨Int.floor_nonneg.mpr (div_nonneg h (by norm_num)),
    Int.floor_nonneg.mpr (div_nonneg hm0 (by norm_num)), ?_,
    Int.floor_nonneg.mpr hs0, ?_, ?_⟩
  · have hq : pyMod s 3600 / 60 < ((60 : ℤ) : ℚ) := by
      rw [div_lt_iff₀ (by norm_num : (0:ℚ) < 60)]
      push_cast
      linarith
    have : fmtMinutes s < 60 := Int.floor_lt.mpr hq
    omega
  · have hq : pyMod s 60 < ((60 : ℤ) : ℚ) := by
      push_cast
      linarith
    have : fmtSecs s < 60 := Int.floor_lt.mpr hq
    omega
  · rw [hmin, hsec]
    show ⌊s / 3600⌋ * 3600 + (⌊s / 60⌋ - 60 * ⌊s / 3600⌋) * 60 + (⌊s⌋ - 60 * ⌊s / 60⌋) = ⌊s⌋
    ring

/-- Witness for C10 at 3661.5 seconds: the fields rebuild 3661. -/
theorem C10_format_timestamp_fields_witness :
    (0 : ℚ) ≤ 7323 / 2 ∧
      fmtHours (7323 / 2) * 3600 + fmtMinutes (7323 / 2) * 60 + fmtSecs (7323 / 2) =
        ⌊(7323 / 2 : ℚ)⌋ :=
  ⟨by norm_num, (C10_format_timestamp_fields (7323 / 2) (by norm_num)).2.2.2.2.2⟩

end VoiceRecord
